import Mathlib

/-
Formal model of the server-side thread subsystem found in
server_module/thread.c of the longene repository (a Wine-derived server
with an optional unified-kernel build).  The definitions below are a
shallow embedding of the data model and of the operations the wait
engine, the APC queues and the thread lifecycle use; each definition
carries a comment naming the C function it embeds.  Machine integers of
the source are modelled as Nat or Int; fallible operations return
Option.  External collaborators of the core (handle table, OS signal
delivery, object allocator) appear as explicit oracle parameters.
-/

set_option maxHeartbeats 1000000
set_option linter.unusedVariables false

namespace LongeneThread

/-! ### Numeric constants

Status values follow the NT status numbering used by the source
(ntstatus.h); the limits MAXIMUM_WAIT_OBJECTS and MAXIMUM_SUSPEND_COUNT
come from the Windows headers the source includes, with the values the
specification states (64 and 127). -/

/-- Offset added to a wait index to report an abandoned acquisition. -/
def STATUS_ABANDONED_WAIT_0 : Int := 0x80

/-- Status returned when an APC must be delivered to the waiter. -/
def STATUS_USER_APC : Int := 0xC0

/-- Status returned when a wait times out. -/
def STATUS_TIMEOUT : Int := 0x102

/-- Status stored when a select call leaves the thread blocked. -/
def STATUS_PENDING : Int := 0x103

/-- Error status for an invalid argument. -/
def STATUS_INVALID_PARAMETER : Int := 0xC000000D

/-- Error status when the suspend counter is exhausted. -/
def STATUS_SUSPEND_COUNT_EXCEEDED : Int := 0xC000004A

/-- Largest handle count a select call accepts. -/
def MAXIMUM_WAIT_OBJECTS : Nat := 64

/-- Largest value of the per-thread suspend counter. -/
def MAXIMUM_SUSPEND_COUNT : Nat := 127

/-- Sentinel timeout meaning that no timer is ever installed. -/
def TIMEOUT_INFINITE : Int := 0x7FFFFFFFFFFFFFFF

/-! ### Data model -/

/-- Lifecycle state of a thread record (field state of struct thread). -/
inductive ThreadState where
  | RUNNING
  | TERMINATED
  deriving DecidableEq, Repr

/-- Tag of an APC call (enum apc_type of the wire protocol). -/
inductive ApcType where
  | APC_NONE
  | APC_USER
  | APC_TIMER
  | APC_ASYNC_IO
  | APC_VIRTUAL_ALLOC
  | APC_VIRTUAL_FREE
  | APC_VIRTUAL_QUERY
  | APC_VIRTUAL_PROTECT
  | APC_VIRTUAL_FLUSH
  | APC_VIRTUAL_LOCK
  | APC_VIRTUAL_UNLOCK
  | APC_MAP_VIEW
  | APC_UNMAP_VIEW
  | APC_CREATE_THREAD
  | APC_BREAK_PROCESS
  deriving DecidableEq, Repr

/-- Immutable part of a struct thread_apc record: an object identity
(modelling the heap address), the owning object (field owner, an
optional strong reference modelled by an object id) and the call tag
(field call.type).  The mutable executed flag and the result tag live
in the ApcWorld state below, keyed by the identity. -/
structure Apc where
  id : Nat
  owner : Option Nat
  ty : ApcType
  deriving DecidableEq, Repr

/-- Wait flags of a select call (SELECT_ALL, SELECT_ALERTABLE and
SELECT_INTERRUPTIBLE bits of wait->flags). -/
structure SelectFlags where
  all : Bool
  alertable : Bool
  interruptible : Bool
  deriving DecidableEq, Repr

/-- State of one waitable object of a wait frame at evaluation time:
the value its signaled operation reports for the waiting thread, and
the value its satisfied operation would return (true means the
acquisition is abandoned). -/
structure WaitObject where
  signaled : Bool
  abandoned : Bool
  deriving DecidableEq, Repr

/-- A wait frame (struct thread_wait): the objects in handle order
(the queues vector), the flags and the absolute deadline.  The cookie
and the timeout-user handle are not needed by the claims below. -/
structure ThreadWait where
  objects : List WaitObject
  flags : SelectFlags
  timeout : Int
  deriving DecidableEq, Repr

/-- The part of a struct thread record the claims touch.  The field
wait is the stack of active wait frames, head first; processSuspend
embeds thread->process->suspend. -/
structure ThreadRec where
  state : ThreadState
  suspend : Nat
  processSuspend : Nat
  systemApc : List Apc
  userApc : List Apc
  wait : List ThreadWait
  exit_time : Int
  exit_code : Int
  deriving DecidableEq, Repr

/-! ### The wait evaluation (check_wait) -/

/-- Scan of the non-WAIT_ALL branch of check_wait: first object whose
signaled operation reports true, together with its index in handle
order. -/
def scanSignaled : List WaitObject → Option (Nat × WaitObject)
  | [] => Option.none
  | o :: rest =>
      if o.signaled then some (0, o)
      else (scanSignaled rest).map (fun p => (p.1 + 1, p.2))

/-- Result of evaluating check_wait: the status it returns together
with the indices of the objects on which the satisfied operation was
invoked, in invocation order. -/
structure CheckWaitResult where
  status : Int
  satisfiedCalls : List Nat
  deriving DecidableEq, Repr

/-- Final checks of check_wait (label other_checks): ALERTABLE with a
pending user APC, then the deadline, else the pending sentinel. -/
def other_checks (t : ThreadRec) (w : ThreadWait) (current_time : Int) : CheckWaitResult :=
  if w.flags.alertable && !t.userApc.isEmpty then ⟨STATUS_USER_APC, []⟩
  else if w.timeout ≤ current_time then ⟨STATUS_TIMEOUT, []⟩
  else ⟨-1, []⟩

/-- Embedding of check_wait of thread.c.  The frame w is the head wait
frame of t; current_time is the server clock at evaluation time. -/
def check_wait (t : ThreadRec) (w : ThreadWait) (current_time : Int) : CheckWaitResult :=
  if w.flags.interruptible && !t.systemApc.isEmpty then ⟨STATUS_USER_APC, []⟩
  else if 0 < t.processSuspend + t.suspend then ⟨-1, []⟩
  else if w.flags.all then
    if w.objects.all (fun o => o.signaled) then
      ⟨if w.objects.any (fun o => o.abandoned) then STATUS_ABANDONED_WAIT_0 else 0,
        List.range w.objects.length⟩
    else other_checks t w current_time
  else
    match scanSignaled w.objects with
    | some (i, o) =>
        ⟨if o.abandoned then (i : Int) + STATUS_ABANDONED_WAIT_0 else (i : Int), [i]⟩
    | Option.none => other_checks t w current_time

/-! ### Helper lemmas about the scan -/

theorem scanSignaled_eq_first :
    ∀ (l : List WaitObject) (i : Nat) (o : WaitObject),
      l.get? i = some o → o.signaled = true →
      (∀ j o2, j < i → l.get? j = some o2 → o2.signaled = false) →
      scanSignaled l = some (i, o) := by
  intro l
  induction l with
  | nil => intro i o hget _ _; simp [List.get?] at hget
  | cons a rest ih =>
      intro i o hget hsig hbefore
      cases i with
      | zero =>
          simp [List.get?] at hget
          subst hget
          simp [scanSignaled, hsig]
      | succ n =>
          have ha : a.signaled = false := hbefore 0 a (Nat.succ_pos n) rfl
          have hrest : scanSignaled rest = some (n, o) := by
            apply ih n o hget hsig
            intro j o2 hj hg
            exact hbefore (j + 1) o2 (Nat.succ_lt_succ hj) hg
          simp [scanSignaled, ha, hrest]

theorem scanSignaled_eq_none :
    ∀ (l : List WaitObject),
      (∀ o ∈ l, o.signaled = false) → scanSignaled l = Option.none := by
  intro l
  induction l with
  | nil => intro _; rfl
  | cons a rest ih =>
      intro h
      have ha : a.signaled = false := h a (List.mem_cons_self a rest)
      have hrest : scanSignaled rest = Option.none :=
        ih (fun o ho => h o (List.mem_cons_of_mem a ho))
      simp [scanSignaled, ha, hrest]

/-! ### Claim C1 -/

/-- C1: for a wait frame without WAIT_ALL whose thread is neither
interruptible with a pending system APC nor suspended, check_wait scans
the objects in handle order, the first object reporting signaled wins,
satisfied is invoked only on that object, and the status is its index,
plus the ABANDONED offset when satisfied returned true.  The result is
a function of the handle order and object states alone (the conclusion
does not mention current_time), which is the determinism part of the
claim. -/
theorem check_wait_first_signaled_wins
    (t : ThreadRec) (w : ThreadWait) (current_time : Int) (i : Nat) (o : WaitObject)
    (hall : w.flags.all = false)
    (hapc : w.flags.interruptible = false ∨ t.systemApc = [])
    (hsusp : t.processSuspend + t.suspend = 0)
    (hget : w.objects.get? i = some o)
    (hsig : o.signaled = true)
    (hbefore : ∀ j o2, j < i → w.objects.get? j = some o2 → o2.signaled = false) :
    check_wait t w current_time =
      ⟨if o.abandoned then (i : Int) + STATUS_ABANDONED_WAIT_0 else (i : Int), [i]⟩ := by
  have hscan : scanSignaled w.objects = some (i, o) :=
    scanSignaled_eq_first w.objects i o hget hsig hbefore
  have h1 : (w.flags.interruptible && !t.systemApc.isEmpty) = false := by
    rcases hapc with h | h <;> simp [h]
  simp [check_wait, h1, hsusp, hall, hscan]

/-- Witness for C1 at a concrete input: a frame of two objects where
the second is signaled and abandoned. -/
theorem check_wait_first_signaled_wins_witness :
    check_wait ⟨.RUNNING, 0, 0, [], [], [], 0, 0⟩
        ⟨[⟨false, false⟩, ⟨true, true⟩], ⟨false, false, false⟩, 0⟩ 0 =
      ⟨(1 : Int) + STATUS_ABANDONED_WAIT_0, [1]⟩ := by
  have h := check_wait_first_signaled_wins
    ⟨.RUNNING, 0, 0, [], [], [], 0, 0⟩
    ⟨[⟨false, false⟩, ⟨true, true⟩], ⟨false, false, false⟩, 0⟩
    0 1 ⟨true, true⟩ rfl (Or.inl rfl) rfl rfl rfl
    (by
      intro j o2 hj hg
      have hj0 : j = 0 := Nat.lt_one_iff.mp hj
      subst hj0
      simp [List.get?] at hg
      subst hg
      rfl)
  simpa using h

/-! ### Claim C2 -/

/-- Possible statuses of the final checks: USER_APC, TIMEOUT or the
pending sentinel. -/
theorem other_checks_status (t : ThreadRec) (w : ThreadWait) (ct : Int) :
    (other_checks t w ct).status = STATUS_USER_APC ∨
    (other_checks t w ct).status = STATUS_TIMEOUT ∨
    (other_checks t w ct).status = -1 := by
  unfold other_checks
  split_ifs <;> simp

/-- C2: with the WAIT_ALL flag the wait is satisfied (acquisition
status 0 or ABANDONED_WAIT_0) only when every object reports signaled;
and when the thread is neither interruptible with a pending system APC
nor suspended and every object is signaled, satisfied is invoked on
every object of the frame, in handle order, and the status is
ABANDONED_WAIT_0 when any satisfied call returned true, else 0. -/
theorem check_wait_wait_all_semantics
    (t : ThreadRec) (w : ThreadWait) (ct : Int)
    (hall : w.flags.all = true) :
    (((check_wait t w ct).status = 0 ∨
        (check_wait t w ct).status = STATUS_ABANDONED_WAIT_0) →
      ∀ o ∈ w.objects, o.signaled = true) ∧
    ((w.flags.interruptible = false ∨ t.systemApc = []) →
      t.processSuspend + t.suspend = 0 →
      (∀ o ∈ w.objects, o.signaled = true) →
      check_wait t w ct =
        ⟨if w.objects.any (fun o => o.abandoned) then STATUS_ABANDONED_WAIT_0 else 0,
          List.range w.objects.length⟩) := by
  constructor
  · intro hst o ho
    by_cases hallsig : w.objects.all (fun o => o.signaled) = true
    · exact List.all_eq_true.mp hallsig o ho
    · exfalso
      by_cases h1 : (w.flags.interruptible && !t.systemApc.isEmpty) = true
      · simp [check_wait, h1, STATUS_USER_APC, STATUS_ABANDONED_WAIT_0] at hst
      · by_cases h2 : 0 < t.processSuspend + t.suspend
        · simp [check_wait, eq_false_of_ne_true h1, h2, STATUS_ABANDONED_WAIT_0] at hst
        · have hoc := other_checks_status t w ct
          simp [check_wait, eq_false_of_ne_true h1, h2, hall,
            eq_false_of_ne_true hallsig] at hst
          rcases hoc with h | h | h <;> rw [h] at hst <;>
            rcases hst with h' | h' <;>
            norm_num [STATUS_USER_APC, STATUS_TIMEOUT, STATUS_ABANDONED_WAIT_0] at h'
  · intro hapc hsusp hsig
    have hallsig : w.objects.all (fun o => o.signaled) = true :=
      List.all_eq_true.mpr hsig
    have h1 : (w.flags.interruptible && !t.systemApc.isEmpty) = false := by
      rcases hapc with h | h <;> simp [h]
    simp [check_wait, h1, hsusp, hall, hallsig]

/-- Witness for C2: both objects of a WAIT_ALL frame signaled, the
first satisfied call reporting abandonment; status upgrades to
ABANDONED_WAIT_0 and satisfied runs on both objects. -/
theorem check_wait_wait_all_semantics_witness :
    check_wait ⟨.RUNNING, 0, 0, [], [], [], 0, 0⟩
        ⟨[⟨true, true⟩, ⟨true, false⟩], ⟨true, false, false⟩, 0⟩ 0 =
      ⟨STATUS_ABANDONED_WAIT_0, [0, 1]⟩ := by
  have h := (check_wait_wait_all_semantics
    ⟨.RUNNING, 0, 0, [], [], [], 0, 0⟩
    ⟨[⟨true, true⟩, ⟨true, false⟩], ⟨true, false, false⟩, 0⟩ 0 rfl).2
    (Or.inl rfl) rfl
    (by intro o ho; simp [List.mem_cons] at ho; rcases ho with rfl | rfl <;> rfl)
  exact h

/-! ### The select entry point (select_on) -/

/-- Outcome of the optional signal step of select_on: no signal handle
was passed, the signaling operation failed, the signal satisfied the
wait of the calling thread itself, or it succeeded leaving the wait
pending.  The signaling operation itself is polymorphic over object
kinds and lives outside the core. -/
inductive SignalStep where
  | noSignal
  | signalFails
  | signalOkSelfWoken
  | signalOk
  deriving DecidableEq, Repr

/-- Which call of select_on set the per-call error slot.  invalidParam
is the STATUS_INVALID_PARAMETER of the count validation; resolveFailed
stands for the status set by a failed handle resolution; signalFailed
for the status set by the failed signaling operation; pending for
STATUS_PENDING; status s for set_error of the check_wait result s. -/
inductive SelectError where
  | invalidParam
  | resolveFailed
  | signalFailed
  | pending
  | status (s : Int)
  deriving DecidableEq, Repr

/-- Observable outcome of select_on: the error slot, whether the
calling thread still has the new wait frame installed when select_on
returns (the suspended case), whether a timeout timer was installed,
and the returned timeout value. -/
structure SelectResult where
  error : Option SelectError
  waitInstalled : Bool
  timerInstalled : Bool
  retTimeout : Int
  deriving DecidableEq, Repr

/-- Embedding of select_on of thread.c.  resolve is the handle table
oracle: resolution of the handle at position i of the request, already
checked for SYNCHRONIZE access.  Allocation failures of the wait frame
and of the timer are not modelled (they abort the wait without a
status of their own). -/
def select_on (t : ThreadRec) (count : Nat) (resolve : Nat → Option WaitObject)
    (flags : SelectFlags) (timeout : Int) (sig : SignalStep) (current_time : Int) :
    SelectResult :=
  let timeout1 := if timeout ≤ 0 then current_time - timeout else timeout
  if MAXIMUM_WAIT_OBJECTS < count then
    ⟨some .invalidParam, false, false, 0⟩
  else
    match (List.range count).mapM resolve with
    | Option.none => ⟨some .resolveFailed, false, false, timeout1⟩
    | some objects =>
        match sig with
        | .signalFails => ⟨some .signalFailed, false, false, timeout1⟩
        | .signalOkSelfWoken => ⟨Option.none, false, false, timeout1⟩
        | _ =>
            let r := check_wait t ⟨objects, flags, timeout1⟩ current_time
            if r.status = -1 then
              ⟨some .pending, true, !(timeout1 == TIMEOUT_INFINITE), timeout1⟩
            else ⟨some (.status r.status), false, false, timeout1⟩

/-! ### Claim C6 -/

/-- C6: a handle count above MAXIMUM_WAIT_OBJECTS = 64 fails with
INVALID_PARAMETER, with no wait state change and a result independent
of the handle table (no handle is resolved), while a count of exactly
64 never produces the invalid-parameter error. -/
theorem select_on_count_validation
    (t : ThreadRec) (resolve resolve2 : Nat → Option WaitObject) (flags : SelectFlags)
    (timeout : Int) (sig : SignalStep) (ct : Int) :
    (∀ count, MAXIMUM_WAIT_OBJECTS < count →
      select_on t count resolve flags timeout sig ct =
        ⟨some .invalidParam, false, false, 0⟩ ∧
      select_on t count resolve flags timeout sig ct =
        select_on t count resolve2 flags timeout sig ct) ∧
    (select_on t MAXIMUM_WAIT_OBJECTS resolve flags timeout sig ct).error ≠
      some .invalidParam := by
  constructor
  · intro count hcount
    constructor <;> simp [select_on, hcount]
  · have hlt : ¬ (MAXIMUM_WAIT_OBJECTS < MAXIMUM_WAIT_OBJECTS) := lt_irrefl _
    unfold select_on
    simp only [if_neg hlt]
    rcases h : (List.range MAXIMUM_WAIT_OBJECTS).mapM resolve with _ | objs
    · simp
    · cases sig <;> simp <;> split_ifs <;> simp

/-- Witness for C6: with 65 handles the result is the invalid-parameter
outcome whatever the handle table holds, and with 64 handles the
validation passes. -/
theorem select_on_count_validation_witness :
    select_on ⟨.RUNNING, 0, 0, [], [], [], 0, 0⟩ 65 (fun _ => Option.none)
        ⟨false, false, false⟩ 0 .noSignal 0 =
      ⟨some .invalidParam, false, false, 0⟩ ∧
    (select_on ⟨.RUNNING, 0, 0, [], [], [], 0, 0⟩ 64 (fun _ => Option.none)
        ⟨false, false, false⟩ 0 .noSignal 0).error ≠ some .invalidParam := by
  refine ⟨?_, ?_⟩
  · exact ((select_on_count_validation ⟨.RUNNING, 0, 0, [], [], [], 0, 0⟩
      (fun _ => Option.none) (fun _ => Option.none) ⟨false, false, false⟩
      0 .noSignal 0).1 65 (by norm_num [MAXIMUM_WAIT_OBJECTS])).1
  · exact (select_on_count_validation ⟨.RUNNING, 0, 0, [], [], [], 0, 0⟩
      (fun _ => Option.none) (fun _ => Option.none) ⟨false, false, false⟩
      0 .noSignal 0).2

/-! ### Claim C5 -/

/-- Helper: under the quiet hypotheses of C5 check_wait reports a
timeout as soon as the deadline has been reached, provided the frame
is not a degenerate empty WAIT_ALL frame. -/
theorem check_wait_returns_timeout
    (t : ThreadRec) (w : ThreadWait) (ct : Int)
    (hapc : w.flags.interruptible = false ∨ t.systemApc = [])
    (hsusp : t.processSuspend + t.suspend = 0)
    (hnosig : ∀ o ∈ w.objects, o.signaled = false)
    (hne : w.flags.all = false ∨ w.objects ≠ [])
    (huser : w.flags.alertable = false ∨ t.userApc = [])
    (hdl : w.timeout ≤ ct) :
    check_wait t w ct = ⟨STATUS_TIMEOUT, []⟩ := by
  have h1 : (w.flags.interruptible && !t.systemApc.isEmpty) = false := by
    rcases hapc with h | h <;> simp [h]
  have hoc : other_checks t w ct = ⟨STATUS_TIMEOUT, []⟩ := by
    have h3 : (w.flags.alertable && !t.userApc.isEmpty) = false := by
      rcases huser with h | h <;> simp [h]
    simp [other_checks, h3, hdl]
  by_cases hall : w.flags.all = true
  · obtain hobj : w.objects ≠ [] := by
      rcases hne with h | h
      · rw [hall] at h; exact Bool.noConfusion h
      · exact h
    obtain ⟨o, rest, hcons⟩ : ∃ o rest, w.objects = o :: rest := by
      cases hw : w.objects with
      | nil => exact absurd hw hobj
      | cons o rest => exact ⟨o, rest, rfl⟩
    have hno : w.objects.all (fun o => o.signaled) = false := by
      rw [hcons]
      have : o.signaled = false := hnosig o (by rw [hcons]; exact List.mem_cons_self o rest)
      simp [List.all_cons, this]
    simp [check_wait, h1, hsusp, hall, hno, hoc]
  · have hscan : scanSignaled w.objects = Option.none :=
      scanSignaled_eq_none w.objects hnosig
    simp [check_wait, h1, hsusp, eq_false_of_ne_true hall, hscan, hoc]

/-- C5 (amended): when the normalized deadline equals current_time, no
resolved object is signaled, no APC is deliverable, the thread is not
suspended and the frame is not an empty WAIT_ALL frame, select_on
returns the TIMEOUT status at once: the error slot holds TIMEOUT, the
frame is gone when select_on returns and no timer was installed. -/
theorem select_on_immediate_timeout
    (t : ThreadRec) (count : Nat) (resolve : Nat → Option WaitObject) (flags : SelectFlags)
    (timeout : Int) (ct : Int) (objs : List WaitObject)
    (hcount : count ≤ MAXIMUM_WAIT_OBJECTS)
    (hres : (List.range count).mapM resolve = some objs)
    (hnosig : ∀ o ∈ objs, o.signaled = false)
    (hapc : flags.interruptible = false ∨ t.systemApc = [])
    (huser : flags.alertable = false ∨ t.userApc = [])
    (hsusp : t.processSuspend + t.suspend = 0)
    (hdl : (if timeout ≤ 0 then ct - timeout else timeout) = ct)
    (hne : flags.all = false ∨ objs ≠ []) :
    select_on t count resolve flags timeout .noSignal ct =
      ⟨some (.status STATUS_TIMEOUT), false, false, ct⟩ := by
  have hlt : ¬ (MAXIMUM_WAIT_OBJECTS < count) := not_lt.mpr hcount
  have hcw : check_wait t ⟨objs, flags, ct⟩ ct = ⟨STATUS_TIMEOUT, []⟩ :=
    check_wait_returns_timeout t ⟨objs, flags, ct⟩ ct hapc hsusp hnosig hne huser le_rfl
  have hst : ¬ ((check_wait t ⟨objs, flags, ct⟩ ct).status = -1) := by
    rw [hcw]; decide
  simp only [select_on, hdl, if_neg hlt, hres]
  simp [hcw, STATUS_TIMEOUT]

/-- Counterexample to C5 as stated: a select call with zero handles
and the WAIT_ALL flag, deadline equal to current_time, nothing
signaled, no deliverable APC and no suspension, returns acquisition
status 0, not TIMEOUT: the empty conjunction of signaled objects is
true, so the WAIT_ALL branch satisfies the wait immediately. -/
theorem select_on_zero_wait_all_counterexample :
    select_on ⟨.RUNNING, 0, 0, [], [], [], 0, 0⟩ 0 (fun _ => Option.none)
        ⟨true, false, false⟩ 0 .noSignal 100 =
      ⟨some (.status 0), false, false, 100⟩ ∧
    (0 : Int) ≠ STATUS_TIMEOUT := by
  constructor
  · rfl
  · decide

/-- Witness for the amended C5: one unsignaled object, relative zero
timeout normalizing to current_time; the call returns TIMEOUT with no
timer and no pending frame. -/
theorem select_on_immediate_timeout_witness :
    select_on ⟨.RUNNING, 0, 0, [], [], [], 0, 0⟩ 1 (fun _ => some ⟨false, false⟩)
        ⟨false, false, false⟩ 0 .noSignal 100 =
      ⟨some (.status STATUS_TIMEOUT), false, false, 100⟩ := by
  exact select_on_immediate_timeout ⟨.RUNNING, 0, 0, [], [], [], 0, 0⟩ 1
    (fun _ => some ⟨false, false⟩) ⟨false, false, false⟩ 0 100 [⟨false, false⟩]
    (by norm_num [MAXIMUM_WAIT_OBJECTS]) rfl
    (by intro o ho; simp [List.mem_cons] at ho; subst ho; rfl)
    (Or.inl rfl) (Or.inl rfl) rfl (by norm_num) (Or.inl rfl)

/-! ### The APC queues of one thread

The mutable state of the APC records of one thread: the two queues
(system and user) hold the immutable descriptors, while the executed
flag and the result tag of every live APC object are kept per object
identity, mirroring the heap of struct thread_apc records.  The wakes
list logs every uk_wake_up call on an APC object, most recent first. -/

structure ApcWorld where
  live : List Nat
  executed : Nat → Bool
  resultTy : Nat → ApcType
  systemApc : List Apc
  userApc : List Apc
  wakes : List Nat

/-- Point update of an executed map, used wherever the source writes
executed = 1 on one record. -/
def setTrue (f : Nat → Bool) (i : Nat) : Nat → Bool :=
  fun j => if j = i then true else f j

/-- Embedding of create_apc of thread.c: a fresh record starts with
executed = 0 and result.type = APC_NONE.  The allocator never returns
a live object, which the guard encodes. -/
def create_apc (w : ApcWorld) (id : Nat) (owner : Option Nat) (ty : ApcType) : ApcWorld :=
  if id ∈ w.live then w
  else
    { w with
      live := id :: w.live,
      executed := fun j => if j = id then false else w.executed j,
      resultTy := fun j => if j = id then ApcType.APC_NONE else w.resultTy j }

/-- Queue routing of get_apc_queue: APC_NONE, APC_USER and APC_TIMER
go to the user queue, every other type to the system queue. -/
def get_apc_queue_user : ApcType → Bool
  | .APC_NONE => true
  | .APC_USER => true
  | .APC_TIMER => true
  | _ => false

/-- The queue get_apc_queue selects for a given type. -/
def target_queue (w : ApcWorld) (ty : ApcType) : List Apc :=
  if get_apc_queue_user ty then w.userApc else w.systemApc

/-- Removal loop of thread_cancel_apc: the first record of the queue
whose owner matches is taken out; later matches are left in place. -/
def cancelFirst (owner : Nat) : List Apc → List Apc × Option Apc
  | [] => ([], Option.none)
  | a :: rest =>
      if a.owner = some owner then (rest, some a)
      else
        let p := cancelFirst owner rest
        (a :: p.1, p.2)

/-- Embedding of thread_cancel_apc of thread.c: on the queue selected
by the type, the first APC with the given owner is removed, marked
executed and its wait queue woken.  The loop compares only the owner;
the type argument is used solely to pick the queue. -/
def thread_cancel_apc (w : ApcWorld) (owner : Nat) (ty : ApcType) : ApcWorld :=
  if get_apc_queue_user ty then
    match cancelFirst owner w.userApc with
    | (q, some a) =>
        { w with
          userApc := q,
          executed := setTrue w.executed a.id,
          wakes := a.id :: w.wakes }
    | (_, Option.none) => w
  else
    match cancelFirst owner w.systemApc with
    | (q, some a) =>
        { w with
          systemApc := q,
          executed := setTrue w.executed a.id,
          wakes := a.id :: w.wakes }
    | (_, Option.none) => w

/-- Tail insertion of wine_list_add_tail into the queue get_apc_queue
selects. -/
def enqueue_apc (w : ApcWorld) (apc : Apc) : ApcWorld :=
  if get_apc_queue_user apc.ty then { w with userApc := w.userApc ++ [apc] }
  else { w with systemApc := w.systemApc ++ [apc] }

/-- Embedding of the explicit-thread branch of queue_apc of thread.c:
fails on a TERMINATED target; for a system APC on an empty system
queue of a thread not in an APC-receptive state, a wake signal must
succeed (signalOk is the send_thread_signal oracle); a non-null owner
first cancels a previous APC with the same owner; then the APC is
appended.  none models the 0 return. -/
def queue_apc_known (tstate : ThreadState) (inApcWait signalOk : Bool)
    (w : ApcWorld) (apc : Apc) : Option ApcWorld :=
  if tstate = ThreadState.TERMINATED then Option.none
  else if !(get_apc_queue_user apc.ty) && w.systemApc.isEmpty && !inApcWait && !signalOk then
    Option.none
  else
    match apc.owner with
    | some o => some (enqueue_apc (thread_cancel_apc w o apc.ty) apc)
    | Option.none => some (enqueue_apc w apc)

/-- Embedding of clear_apc_queue applied to the system queue: every
record is removed, marked executed and its wait queue woken. -/
def clear_apc_queue_system (w : ApcWorld) : ApcWorld :=
  { w with
    systemApc := [],
    executed := w.systemApc.foldl (fun g a => setTrue g a.id) w.executed,
    wakes := w.systemApc.map (fun a => a.id) ++ w.wakes }

/-- Embedding of clear_apc_queue applied to the user queue. -/
def clear_apc_queue_user (w : ApcWorld) : ApcWorld :=
  { w with
    userApc := [],
    executed := w.userApc.foldl (fun g a => setTrue g a.id) w.executed,
    wakes := w.userApc.map (fun a => a.id) ++ w.wakes }

/-- Embedding of the prev_apc handling of the select request handler:
the result of the finished APC is stored, the record is marked
executed and its wait queue is woken. -/
def store_apc_result (w : ApcWorld) (id : Nat) (res : ApcType) : ApcWorld :=
  { w with
    resultTy := fun j => if j = id then res else w.resultTy j,
    executed := setTrue w.executed id,
    wakes := id :: w.wakes }

/-- State threaded through the dequeue loop of the select handler. -/
structure DrainState where
  exec : Nat → Bool
  wakes : List Nat
  rest : List Apc
  found : Option Apc

/-- Consumption of the leading APC_NONE records of one queue: each is
removed, marked executed and woken; the first real APC is dequeued and
returned. -/
def dropNoneHead (exec : Nat → Bool) (wakes : List Nat) : List Apc → DrainState
  | [] => ⟨exec, wakes, [], Option.none⟩
  | a :: rest =>
      if a.ty = ApcType.APC_NONE then dropNoneHead (setTrue exec a.id) (a.id :: wakes) rest
      else ⟨exec, wakes, rest, some a⟩

/-- Embedding of the loop of the select handler around
thread_dequeue_apc: heads are taken from the system queue first, then,
unless system_only, from the user queue; APC_NONE entries are consumed
silently; the first real APC is returned to the client. -/
def dequeue_drain (systemOnly : Bool) (w : ApcWorld) : ApcWorld × Option Apc :=
  let d := dropNoneHead w.executed w.wakes w.systemApc
  match d.found with
  | some a => ({ w with executed := d.exec, wakes := d.wakes, systemApc := d.rest }, some a)
  | Option.none =>
      if systemOnly then
        ({ w with executed := d.exec, wakes := d.wakes, systemApc := d.rest }, Option.none)
      else
        let d2 := dropNoneHead d.exec d.wakes w.userApc
        ({ w with
            executed := d2.exec,
            wakes := d2.wakes,
            systemApc := d.rest,
            userApc := d2.rest }, d2.found)

/-- Embedding of thread_apc_signaled of thread.c: an APC object is
signaled exactly when its executed flag is set. -/
def thread_apc_signaled (w : ApcWorld) (id : Nat) : Bool := w.executed id

/-- The operations of the core that touch APC records. -/
inductive CoreOp where
  | createOp (id : Nat) (owner : Option Nat) (ty : ApcType)
  | postOp (tstate : ThreadState) (inApcWait signalOk : Bool) (apc : Apc)
  | cancelOp (owner : Nat) (ty : ApcType)
  | clearSystemOp
  | clearUserOp
  | storeResultOp (id : Nat) (res : ApcType)
  | dequeueOp (systemOnly : Bool)

/-- Effect of one core operation on the APC state of a thread.  A
failed post (queue_apc returning 0) leaves the state unchanged. -/
def applyOp : CoreOp → ApcWorld → ApcWorld
  | .createOp id owner ty, w => create_apc w id owner ty
  | .postOp st aw sg a, w => (queue_apc_known st aw sg w a).getD w
  | .cancelOp o ty, w => thread_cancel_apc w o ty
  | .clearSystemOp, w => clear_apc_queue_system w
  | .clearUserOp, w => clear_apc_queue_user w
  | .storeResultOp id r, w => store_apc_result w id r
  | .dequeueOp so, w => (dequeue_drain so w).1

/-- Sequential application of core operations. -/
def applyOps (l : List CoreOp) (w : ApcWorld) : ApcWorld :=
  l.foldl (fun w op => applyOp op w) w

/-! ### Target selection of queue_apc (claim C3) -/

/-- Embedding of is_in_apc_wait of thread.c: the thread is suspended
(directly or through its process) or its active wait frame carries the
INTERRUPTIBLE flag. -/
def is_in_apc_wait (t : ThreadRec) : Bool :=
  !(t.processSuspend == 0) || !(t.suspend == 0) ||
    (match t.wait with
     | [] => false
     | wfr :: _ => wfr.flags.interruptible)

/-- Embedding of the null-thread branch of queue_apc of thread.c: the
first loop picks the first thread of the process list that is not
TERMINATED and is in an APC-receptive wait; failing that, the second
loop picks the first thread for which send_thread_signal succeeds (the
accepts oracle), without inspecting its state.  none models the 0
return, the failed post. -/
def queue_apc_pick_thread (threads : List ThreadRec) (accepts : ThreadRec → Bool) :
    Option ThreadRec :=
  match threads.find? (fun c => !(decide (c.state = ThreadState.TERMINATED)) && is_in_apc_wait c) with
  | some t => some t
  | Option.none => threads.find? accepts

/-! ### Helper lemmas about find? -/

theorem find_eq_some_split {α : Type} (p : α → Bool) :
    ∀ (l : List α) (a : α), l.find? p = some a →
      p a = true ∧ ∃ l1 l2, l = l1 ++ a :: l2 ∧ ∀ x ∈ l1, p x = false := by
  intro l
  induction l with
  | nil => intro a h; simp [List.find?] at h
  | cons b rest ih =>
      intro a h
      by_cases hb : p b = true
      · rw [List.find?_cons_of_pos _ hb] at h
        obtain rfl : b = a := by injection h
        exact ⟨hb, [], rest, rfl, by intro x hx; cases hx⟩
      · rw [List.find?_cons_of_neg _ (by simpa using hb)] at h
        obtain ⟨hpa, l1, l2, hsplit, hall2⟩ := ih a h
        refine ⟨hpa, b :: l1, l2, by rw [hsplit]; rfl, ?_⟩
        intro x hx
        rcases List.mem_cons.mp hx with rfl | hx2
        · exact eq_false_of_ne_true hb
        · exact hall2 x hx2

theorem find_eq_none_all_false {α : Type} (p : α → Bool) :
    ∀ (l : List α), l.find? p = Option.none → ∀ x ∈ l, p x = false := by
  intro l
  induction l with
  | nil => intro _ x hx; cases hx
  | cons b rest ih =>
      intro h x hx
      by_cases hb : p b = true
      · rw [List.find?_cons_of_pos _ hb] at h
        cases h
      · rw [List.find?_cons_of_neg _ (by simpa using hb)] at h
        rcases List.mem_cons.mp hx with rfl | hx2
        · exact eq_false_of_ne_true hb
        · exact ih h x hx2

/-- Falsity of the first-loop candidate test, unfolded. -/
theorem waiter_pred_false_iff (c : ThreadRec) :
    (!(decide (c.state = ThreadState.TERMINATED)) && is_in_apc_wait c) = false ↔
      (c.state = ThreadState.TERMINATED ∨ is_in_apc_wait c = false) := by
  by_cases hs : c.state = ThreadState.TERMINATED <;>
    cases hw : is_in_apc_wait c <;> simp [hs, hw]

/-! ### Claim C3 -/

/-- Counterexample to C3 as stated: a process whose only thread is
TERMINATED, with the wake-signal delivery to it succeeding.  The first
loop skips the thread because of its state, but the second loop does
not inspect the state and selects the TERMINATED thread. -/
theorem queue_apc_pick_terminated_counterexample :
    queue_apc_pick_thread [⟨ThreadState.TERMINATED, 0, 0, [], [], [], 0, 0⟩]
        (fun _ => true) =
      some ⟨ThreadState.TERMINATED, 0, 0, [], [], [], 0, 0⟩ ∧
    (⟨ThreadState.TERMINATED, 0, 0, [], [], [], 0, 0⟩ : ThreadRec).state =
      ThreadState.TERMINATED :=
  ⟨rfl, rfl⟩

/-- C3 (amended): with a null target thread, queue-apc posts to the
first non-terminated thread of the process in an interruptible wait or
suspended; otherwise to the first thread, regardless of its state,
that accepts the wake-signal delivery; if neither loop finds a
candidate the post fails.  A TERMINATED thread is never selected by
the first loop, but can be selected by the second. -/
theorem queue_apc_target_selection
    (threads : List ThreadRec) (accepts : ThreadRec → Bool) :
    (∀ t, queue_apc_pick_thread threads accepts = some t →
      ((¬ t.state = ThreadState.TERMINATED) ∧ is_in_apc_wait t = true ∧
          ∃ l1 l2, threads = l1 ++ t :: l2 ∧
            ∀ c ∈ l1, c.state = ThreadState.TERMINATED ∨ is_in_apc_wait c = false) ∨
      ((∀ c ∈ threads, c.state = ThreadState.TERMINATED ∨ is_in_apc_wait c = false) ∧
          accepts t = true ∧
          ∃ l1 l2, threads = l1 ++ t :: l2 ∧ ∀ c ∈ l1, accepts c = false)) ∧
    (queue_apc_pick_thread threads accepts = Option.none →
      ∀ c ∈ threads, (c.state = ThreadState.TERMINATED ∨ is_in_apc_wait c = false) ∧
        accepts c = false) := by
  constructor
  · intro t ht
    unfold queue_apc_pick_thread at ht
    rcases hf : threads.find?
        (fun c => !(decide (c.state = ThreadState.TERMINATED)) && is_in_apc_wait c)
      with _ | t0
    · rw [hf] at ht
      right
      obtain ⟨hacc, l1, l2, hsplit, hall2⟩ := find_eq_some_split accepts threads t ht
      refine ⟨?_, hacc, l1, l2, hsplit, hall2⟩
      intro c hc
      exact (waiter_pred_false_iff c).mp (find_eq_none_all_false _ threads hf c hc)
    · rw [hf] at ht
      obtain rfl : t0 = t := by injection ht
      left
      obtain ⟨hp, l1, l2, hsplit, hall2⟩ := find_eq_some_split _ threads t0 hf
      have hp2 := Bool.and_eq_true_iff.mp hp
      refine ⟨?_, hp2.2, l1, l2, hsplit, ?_⟩
      · intro hterm
        have := hp2.1
        simp [hterm] at this
      · intro c hc
        exact (waiter_pred_false_iff c).mp (hall2 c hc)
  · intro hn c hc
    unfold queue_apc_pick_thread at hn
    rcases hf : threads.find?
        (fun c => !(decide (c.state = ThreadState.TERMINATED)) && is_in_apc_wait c)
      with _ | t0
    · rw [hf] at hn
      constructor
      · exact (waiter_pred_false_iff c).mp (find_eq_none_all_false _ threads hf c hc)
      · exact find_eq_none_all_false accepts threads hn c hc
    · rw [hf] at hn
      cases hn

/-- Witness for the amended C3: a single suspended RUNNING thread is
selected by the first loop. -/
theorem queue_apc_target_selection_witness :
    ((¬ (⟨ThreadState.RUNNING, 1, 0, [], [], [], 0, 0⟩ : ThreadRec).state =
          ThreadState.TERMINATED) ∧
        is_in_apc_wait ⟨ThreadState.RUNNING, 1, 0, [], [], [], 0, 0⟩ = true ∧
        ∃ l1 l2, [(⟨ThreadState.RUNNING, 1, 0, [], [], [], 0, 0⟩ : ThreadRec)] =
            l1 ++ (⟨ThreadState.RUNNING, 1, 0, [], [], [], 0, 0⟩ : ThreadRec) :: l2 ∧
          ∀ c ∈ l1, c.state = ThreadState.TERMINATED ∨ is_in_apc_wait c = false) ∨
    ((∀ c ∈ [(⟨ThreadState.RUNNING, 1, 0, [], [], [], 0, 0⟩ : ThreadRec)],
          c.state = ThreadState.TERMINATED ∨ is_in_apc_wait c = false) ∧
        (fun (_ : ThreadRec) => true) ⟨ThreadState.RUNNING, 1, 0, [], [], [], 0, 0⟩ = true ∧
        ∃ l1 l2, [(⟨ThreadState.RUNNING, 1, 0, [], [], [], 0, 0⟩ : ThreadRec)] =
            l1 ++ (⟨ThreadState.RUNNING, 1, 0, [], [], [], 0, 0⟩ : ThreadRec) :: l2 ∧
          ∀ c ∈ l1, (fun (_ : ThreadRec) => true) c = false) :=
  (queue_apc_target_selection [⟨ThreadState.RUNNING, 1, 0, [], [], [], 0, 0⟩]
    (fun _ => true)).1 ⟨ThreadState.RUNNING, 1, 0, [], [], [], 0, 0⟩ rfl

/-! ### Helper lemmas about the cancellation loop -/

theorem cancelFirst_no_match (o : Nat) :
    ∀ (q : List Apc), (∀ b ∈ q, ¬ b.owner = some o) → cancelFirst o q = (q, Option.none) := by
  intro q
  induction q with
  | nil => intro _; rfl
  | cons a rest ih =>
      intro h
      have ha : ¬ a.owner = some o := h a (List.mem_cons_self a rest)
      have hr := ih (fun b hb => h b (List.mem_cons_of_mem a hb))
      simp [cancelFirst, ha, hr]

theorem cancelFirst_found (o : Nat) (a : Apc) (ha : a.owner = some o) :
    ∀ (l1 l2 : List Apc), (∀ b ∈ l1, ¬ b.owner = some o) →
      cancelFirst o (l1 ++ a :: l2) = (l1 ++ l2, some a) := by
  intro l1
  induction l1 with
  | nil => intro l2 _; simp [cancelFirst, ha]
  | cons b rest ih =>
      intro l2 h
      have hb : ¬ b.owner = some o := h b (List.mem_cons_self b rest)
      have hr := ih l2 (fun x hx => h x (List.mem_cons_of_mem b hx))
      simp [cancelFirst, hb, hr]

/-! ### Claim C4 -/

/-- Counterexample to C4 as stated: two APCs with the same owner and
the same type sit on the user queue; posting a third with that owner
cancels only the first of them, so after the post another APC with the
same owner and type still remains on the queue. -/
theorem queue_apc_same_owner_duplicate_counterexample :
    (queue_apc_known ThreadState.RUNNING false false
        ⟨[1, 2], fun _ => false, fun _ => ApcType.APC_NONE, [],
          [⟨1, some 5, ApcType.APC_USER⟩, ⟨2, some 5, ApcType.APC_USER⟩], []⟩
        ⟨3, some 5, ApcType.APC_USER⟩).map (fun w => w.userApc) =
      some [⟨2, some 5, ApcType.APC_USER⟩, ⟨3, some 5, ApcType.APC_USER⟩] ∧
    (⟨2, some 5, ApcType.APC_USER⟩ : Apc).owner = (⟨3, some 5, ApcType.APC_USER⟩ : Apc).owner ∧
    (⟨2, some 5, ApcType.APC_USER⟩ : Apc).ty = (⟨3, some 5, ApcType.APC_USER⟩ : Apc).ty ∧
    ¬ (⟨2, some 5, ApcType.APC_USER⟩ : Apc).id = (⟨3, some 5, ApcType.APC_USER⟩ : Apc).id := by
  refine ⟨rfl, rfl, rfl, by decide⟩

/-- C4 (amended): posting an APC with a non-null owner to an explicit
thread first cancels the first APC on the target queue with the same
owner, whatever that type of that record is (the type argument only
selects the queue); the cancelled record is marked executed, its wait
queue is woken and its result is left untouched; at most one prior APC
is cancelled, and the new APC is appended at the tail. -/
theorem queue_apc_cancels_first_owner_only
    (w : ApcWorld) (apc : Apc) (o : Nat) (tstate : ThreadState) (aw sg : Bool)
    (w2 : ApcWorld)
    (howner : apc.owner = some o)
    (hpost : queue_apc_known tstate aw sg w apc = some w2) :
    ((∀ b ∈ target_queue w apc.ty, ¬ b.owner = some o) →
        target_queue w2 apc.ty = target_queue w apc.ty ++ [apc]) ∧
    (∀ l1 a2 l2, target_queue w apc.ty = l1 ++ a2 :: l2 → a2.owner = some o →
        (∀ b ∈ l1, ¬ b.owner = some o) →
        target_queue w2 apc.ty = (l1 ++ l2) ++ [apc] ∧
          w2.executed a2.id = true ∧ a2.id ∈ w2.wakes ∧
          w2.resultTy a2.id = w.resultTy a2.id) := by
  have hw2 : w2 = enqueue_apc (thread_cancel_apc w o apc.ty) apc := by
    unfold queue_apc_known at hpost
    by_cases h1 : tstate = ThreadState.TERMINATED
    · simp [h1] at hpost
    · by_cases h2 : (!(get_apc_queue_user apc.ty) && w.systemApc.isEmpty && !aw && !sg) = true
      · simp [h1, h2] at hpost
      · simp [h1, eq_false_of_ne_true h2, howner] at hpost
        exact hpost.symm
  subst hw2
  by_cases hu : get_apc_queue_user apc.ty = true
  · constructor
    · intro hnone
      have hc : cancelFirst o w.userApc = (w.userApc, Option.none) :=
        cancelFirst_no_match o w.userApc (by simpa [target_queue, hu] using hnone)
      simp [target_queue, hu, enqueue_apc, thread_cancel_apc, hc]
    · intro l1 a2 l2 hsplit ha2 hl1
      have hsplit2 : w.userApc = l1 ++ a2 :: l2 := by simpa [target_queue, hu] using hsplit
      have hc : cancelFirst o w.userApc = (l1 ++ l2, some a2) := by
        rw [hsplit2]; exact cancelFirst_found o a2 ha2 l1 l2 hl1
      refine ⟨?_, ?_, ?_, ?_⟩ <;>
        simp [target_queue, hu, enqueue_apc, thread_cancel_apc, hc, setTrue]
  · have hu2 : get_apc_queue_user apc.ty = false := eq_false_of_ne_true hu
    constructor
    · intro hnone
      have hc : cancelFirst o w.systemApc = (w.systemApc, Option.none) :=
        cancelFirst_no_match o w.systemApc (by simpa [target_queue, hu2] using hnone)
      simp [target_queue, hu2, enqueue_apc, thread_cancel_apc, hc]
    · intro l1 a2 l2 hsplit ha2 hl1
      have hsplit2 : w.systemApc = l1 ++ a2 :: l2 := by simpa [target_queue, hu2] using hsplit
      have hc : cancelFirst o w.systemApc = (l1 ++ l2, some a2) := by
        rw [hsplit2]; exact cancelFirst_found o a2 ha2 l1 l2 hl1
      refine ⟨?_, ?_, ?_, ?_⟩ <;>
        simp [target_queue, hu2, enqueue_apc, thread_cancel_apc, hc, setTrue]

/-- Witness for the amended C4: a queue holding one APC of owner 7;
posting another APC of owner 7 cancels it (executed set, wait queue
woken, result untouched) and appends the new record. -/
theorem queue_apc_cancels_first_owner_only_witness :
    target_queue (enqueue_apc (thread_cancel_apc
          ⟨[10], fun _ => false, fun _ => ApcType.APC_NONE, [],
            [⟨10, some 7, ApcType.APC_USER⟩], []⟩ 7 ApcType.APC_USER)
        ⟨11, some 7, ApcType.APC_USER⟩) ApcType.APC_USER =
      ([] ++ []) ++ [⟨11, some 7, ApcType.APC_USER⟩] ∧
    (enqueue_apc (thread_cancel_apc
          ⟨[10], fun _ => false, fun _ => ApcType.APC_NONE, [],
            [⟨10, some 7, ApcType.APC_USER⟩], []⟩ 7 ApcType.APC_USER)
        ⟨11, some 7, ApcType.APC_USER⟩).executed 10 = true ∧
    (10 : Nat) ∈ (enqueue_apc (thread_cancel_apc
          ⟨[10], fun _ => false, fun _ => ApcType.APC_NONE, [],
            [⟨10, some 7, ApcType.APC_USER⟩], []⟩ 7 ApcType.APC_USER)
        ⟨11, some 7, ApcType.APC_USER⟩).wakes ∧
    (enqueue_apc (thread_cancel_apc
          ⟨[10], fun _ => false, fun _ => ApcType.APC_NONE, [],
            [⟨10, some 7, ApcType.APC_USER⟩], []⟩ 7 ApcType.APC_USER)
        ⟨11, some 7, ApcType.APC_USER⟩).resultTy 10 = ApcType.APC_NONE :=
  (queue_apc_cancels_first_owner_only
      ⟨[10], fun _ => false, fun _ => ApcType.APC_NONE, [],
        [⟨10, some 7, ApcType.APC_USER⟩], []⟩
      ⟨11, some 7, ApcType.APC_USER⟩ 7 ThreadState.RUNNING false false
      (enqueue_apc (thread_cancel_apc
          ⟨[10], fun _ => false, fun _ => ApcType.APC_NONE, [],
            [⟨10, some 7, ApcType.APC_USER⟩], []⟩ 7 ApcType.APC_USER)
        ⟨11, some 7, ApcType.APC_USER⟩)
      rfl rfl).2 [] ⟨10, some 7, ApcType.APC_USER⟩ [] rfl rfl
    (by intro b hb; cases hb)

/-! ### Claim C9 -/

theorem setTrue_mono (f : Nat → Bool) (i j : Nat) (h : f i = true) :
    setTrue f j i = true := by
  unfold setTrue
  split <;> simp [h]

theorem foldl_setTrue_mono :
    ∀ (l : List Apc) (f : Nat → Bool) (i : Nat), f i = true →
      (l.foldl (fun g a => setTrue g a.id) f) i = true := by
  intro l
  induction l with
  | nil => intro f i h; simpa using h
  | cons a rest ih =>
      intro f i h
      simpa [List.foldl_cons] using ih (setTrue f a.id) i (setTrue_mono f i a.id h)

theorem dropNoneHead_exec_mono :
    ∀ (l : List Apc) (f : Nat → Bool) (ws : List Nat) (i : Nat), f i = true →
      (dropNoneHead f ws l).exec i = true := by
  intro l
  induction l with
  | nil => intro f ws i h; simpa [dropNoneHead] using h
  | cons a rest ih =>
      intro f ws i h
      by_cases hty : a.ty = ApcType.APC_NONE
      · simpa [dropNoneHead, hty] using
          ih (setTrue f a.id) (a.id :: ws) i (setTrue_mono f i a.id h)
      · simpa [dropNoneHead, hty] using h

theorem thread_cancel_apc_exec_mono (w : ApcWorld) (o : Nat) (ty : ApcType) (i : Nat)
    (h : w.executed i = true) : (thread_cancel_apc w o ty).executed i = true := by
  unfold thread_cancel_apc
  by_cases hu : get_apc_queue_user ty = true
  · rcases hc : cancelFirst o w.userApc with ⟨q, c⟩
    cases c with
    | none => simp [hu, hc, h]
    | some a => simp [hu, hc, setTrue_mono w.executed i a.id h]
  · have hu2 : get_apc_queue_user ty = false := eq_false_of_ne_true hu
    rcases hc : cancelFirst o w.systemApc with ⟨q, c⟩
    cases c with
    | none => simp [hu2, hc, h]
    | some a => simp [hu2, hc, setTrue_mono w.executed i a.id h]

theorem enqueue_apc_executed (w : ApcWorld) (a : Apc) :
    (enqueue_apc w a).executed = w.executed := by
  unfold enqueue_apc
  split <;> rfl

theorem enqueue_apc_live (w : ApcWorld) (a : Apc) :
    (enqueue_apc w a).live = w.live := by
  unfold enqueue_apc
  split <;> rfl

theorem thread_cancel_apc_live (w : ApcWorld) (o : Nat) (ty : ApcType) :
    (thread_cancel_apc w o ty).live = w.live := by
  unfold thread_cancel_apc
  by_cases hu : get_apc_queue_user ty = true
  · rcases hc : cancelFirst o w.userApc with ⟨q, c⟩
    cases c with
    | none => simp [hu, hc]
    | some a => simp [hu, hc]
  · have hu2 : get_apc_queue_user ty = false := eq_false_of_ne_true hu
    rcases hc : cancelFirst o w.systemApc with ⟨q, c⟩
    cases c with
    | none => simp [hu2, hc]
    | some a => simp [hu2, hc]

theorem applyOp_exec_mono (op : CoreOp) (w : ApcWorld) (i : Nat)
    (hlive : i ∈ w.live) (h : w.executed i = true) :
    (applyOp op w).executed i = true := by
  cases op with
  | createOp id owner ty =>
      unfold applyOp create_apc
      by_cases hmem : id ∈ w.live
      · simp [hmem, h]
      · have hne : ¬ i = id := fun he => hmem (he ▸ hlive)
        simp [hmem, hne, h]
  | postOp st aw sg a =>
      unfold applyOp queue_apc_known
      by_cases h1 : st = ThreadState.TERMINATED
      · simp [h1, h]
      · by_cases h2 : (!(get_apc_queue_user a.ty) && w.systemApc.isEmpty && !aw && !sg) = true
        · simp [h1, h2, h]
        · rcases ho : a.owner with _ | o
          · simp [h1, eq_false_of_ne_true h2, ho, enqueue_apc_executed, h]
          · simp [h1, eq_false_of_ne_true h2, ho, enqueue_apc_executed,
              thread_cancel_apc_exec_mono w o a.ty i h]
  | cancelOp o ty => exact thread_cancel_apc_exec_mono w o ty i h
  | clearSystemOp =>
      unfold applyOp clear_apc_queue_system
      simpa using foldl_setTrue_mono w.systemApc w.executed i h
  | clearUserOp =>
      unfold applyOp clear_apc_queue_user
      simpa using foldl_setTrue_mono w.userApc w.executed i h
  | storeResultOp id r =>
      unfold applyOp store_apc_result
      simpa using setTrue_mono w.executed i id h
  | dequeueOp so =>
      unfold applyOp dequeue_drain
      rcases hd : dropNoneHead w.executed w.wakes w.systemApc with ⟨e, ws, rest, found⟩
      have he : e i = true := by
        have hm := dropNoneHead_exec_mono w.systemApc w.executed w.wakes i h
        rw [hd] at hm
        exact hm
      cases found with
      | some a => simp [hd, he]
      | none =>
          by_cases hso : so = true
          · simp [hd, hso, he]
          · rcases hd2 : dropNoneHead e ws w.userApc with ⟨e2, ws2, rest2, found2⟩
            have he2 : e2 i = true := by
              have hm := dropNoneHead_exec_mono w.userApc e ws i he
              rw [hd2] at hm
              exact hm
            simp [hd, eq_false_of_ne_true hso, hd2, he2]

theorem applyOp_live_mono (op : CoreOp) (w : ApcWorld) (i : Nat) (h : i ∈ w.live) :
    i ∈ (applyOp op w).live := by
  cases op with
  | createOp id owner ty =>
      unfold applyOp create_apc
      by_cases hmem : id ∈ w.live
      · simpa [hmem] using h
      · simp [hmem]
        exact Or.inr h
  | postOp st aw sg a =>
      unfold applyOp queue_apc_known
      by_cases h1 : st = ThreadState.TERMINATED
      · simpa [h1] using h
      · by_cases h2 : (!(get_apc_queue_user a.ty) && w.systemApc.isEmpty && !aw && !sg) = true
        · simpa [h1, h2] using h
        · rcases ho : a.owner with _ | o
          · simpa [h1, eq_false_of_ne_true h2, ho, enqueue_apc_live] using h
          · simpa [h1, eq_false_of_ne_true h2, ho, enqueue_apc_live,
              thread_cancel_apc_live] using h
  | cancelOp o ty =>
      have hl := thread_cancel_apc_live w o ty
      unfold applyOp
      rw [hl]
      exact h
  | clearSystemOp => simpa [applyOp, clear_apc_queue_system] using h
  | clearUserOp => simpa [applyOp, clear_apc_queue_user] using h
  | storeResultOp id r => simpa [applyOp, store_apc_result] using h
  | dequeueOp so =>
      unfold applyOp dequeue_drain
      rcases hd : dropNoneHead w.executed w.wakes w.systemApc with ⟨e, ws, rest, found⟩
      cases found with
      | some a => simpa [hd] using h
      | none =>
          by_cases hso : so = true
          · simpa [hd, hso] using h
          · rcases hd2 : dropNoneHead e ws w.userApc with ⟨e2, ws2, rest2, found2⟩
            simpa [hd, eq_false_of_ne_true hso, hd2] using h

theorem applyOps_exec_mono :
    ∀ (ops : List CoreOp) (w : ApcWorld) (i : Nat),
      i ∈ w.live → w.executed i = true → (applyOps ops w).executed i = true := by
  intro ops
  induction ops with
  | nil => intro w i _ h; simpa [applyOps] using h
  | cons op rest ih =>
      intro w i hlive h
      have h1 := applyOp_exec_mono op w i hlive h
      have h2 := applyOp_live_mono op w i hlive
      simpa [applyOps, List.foldl_cons] using ih (applyOp op w) i h2 h1

/-- C9: the executed flag of an APC record is false at creation and is
monotonic across every core operation touching APC records (posting,
cancellation, prior-result storage of select, queue clearing, the
dequeue loop consuming APC_NONE entries): once true it never turns
false again; and an APC object is signaled exactly when executed, so a
signaled APC stays signaled. -/
theorem apc_executed_monotonic :
    (∀ (w : ApcWorld) (id : Nat) (owner : Option Nat) (ty : ApcType),
        ¬ id ∈ w.live → (create_apc w id owner ty).executed id = false) ∧
    (∀ (ops : List CoreOp) (w : ApcWorld) (id : Nat),
        id ∈ w.live → w.executed id = true → (applyOps ops w).executed id = true) ∧
    (∀ (w : ApcWorld) (id : Nat), thread_apc_signaled w id = w.executed id) := by
  refine ⟨?_, applyOps_exec_mono, fun _ _ => rfl⟩
  intro w id owner ty hmem
  simp [create_apc, hmem]

/-- Witness for C9: an executed APC stays executed across a
cancellation, a queue clear and a dequeue. -/
theorem apc_executed_monotonic_witness :
    (applyOps [CoreOp.cancelOp 5 ApcType.APC_USER, CoreOp.clearUserOp,
        CoreOp.dequeueOp false]
      ⟨[1], fun j => decide (j = 1), fun _ => ApcType.APC_NONE, [], [], []⟩).executed 1 =
      true :=
  apc_executed_monotonic.2.1
    [CoreOp.cancelOp 5 ApcType.APC_USER, CoreOp.clearUserOp, CoreOp.dequeueOp false]
    ⟨[1], fun j => decide (j = 1), fun _ => ApcType.APC_NONE, [], [], []⟩ 1
    (List.mem_singleton.mpr rfl) (by decide)

/-! ### Suspension (claim C7) -/

/-- Outcome of suspend_thread: the updated record, the prior count
returned to the caller, the error slot, and whether a stop signal was
delivered (the suspend sum was zero before the increment). -/
structure SuspendOutcome where
  thread : ThreadRec
  prev : Nat
  error : Option Int
  stopSent : Bool

/-- Embedding of suspend_thread of thread.c: below the limit the
counter is incremented (and the thread stopped at the OS level when
the suspend sum was zero); at MAXIMUM_SUSPEND_COUNT the call fails
with SUSPEND_COUNT_EXCEEDED and changes nothing; the prior count is
returned either way. -/
def suspend_thread (t : ThreadRec) : SuspendOutcome :=
  if t.suspend < MAXIMUM_SUSPEND_COUNT then
    ⟨{ t with suspend := t.suspend + 1 }, t.suspend, Option.none,
      t.processSuspend + t.suspend == 0⟩
  else ⟨t, t.suspend, some STATUS_SUSPEND_COUNT_EXCEEDED, false⟩

/-- Embedding of resume_thread of thread.c: a positive counter is
decremented; the prior count is returned. -/
def resume_thread (t : ThreadRec) : ThreadRec × Nat :=
  if 0 < t.suspend then ({ t with suspend := t.suspend - 1 }, t.suspend)
  else (t, t.suspend)

/-- The two operations that move the suspend counter. -/
inductive SuspendOp where
  | susp
  | resume

/-- Sequential application of suspend and resume calls. -/
def applySuspendOps (l : List SuspendOp) (t : ThreadRec) : ThreadRec :=
  l.foldl
    (fun t op =>
      match op with
      | SuspendOp.susp => (suspend_thread t).thread
      | SuspendOp.resume => (resume_thread t).1)
    t

/-- C7: at a counter of MAXIMUM_SUSPEND_COUNT = 127 suspend-thread
fails with SUSPEND_COUNT_EXCEEDED and leaves the counter unchanged;
below the limit it increments the counter and returns the prior count
with no error; and any sequence of suspend and resume calls keeps the
counter at or below 127. -/
theorem suspend_thread_bounds :
    (∀ t : ThreadRec, t.suspend = MAXIMUM_SUSPEND_COUNT →
        suspend_thread t =
          ⟨t, MAXIMUM_SUSPEND_COUNT, some STATUS_SUSPEND_COUNT_EXCEEDED, false⟩) ∧
    (∀ t : ThreadRec, t.suspend < MAXIMUM_SUSPEND_COUNT →
        (suspend_thread t).thread.suspend = t.suspend + 1 ∧
        (suspend_thread t).prev = t.suspend ∧
        (suspend_thread t).error = Option.none) ∧
    (∀ (ops : List SuspendOp) (t : ThreadRec), t.suspend ≤ MAXIMUM_SUSPEND_COUNT →
        (applySuspendOps ops t).suspend ≤ MAXIMUM_SUSPEND_COUNT) := by
  refine ⟨?_, ?_, ?_⟩
  · intro t h
    have hlt : ¬ t.suspend < MAXIMUM_SUSPEND_COUNT := by rw [h]; exact lt_irrefl _
    simp [suspend_thread, hlt, h]
  · intro t h
    simp [suspend_thread, h]
  · intro ops
    induction ops with
    | nil => intro t h; simpa [applySuspendOps] using h
    | cons op rest ih =>
        intro t h
        have hstep :
            (match op with
              | SuspendOp.susp => (suspend_thread t).thread
              | SuspendOp.resume => (resume_thread t).1).suspend ≤
              MAXIMUM_SUSPEND_COUNT := by
          cases op with
          | susp =>
              by_cases hc : t.suspend < MAXIMUM_SUSPEND_COUNT
              · simp [suspend_thread, hc]
                omega
              · simp [suspend_thread, hc]
                exact h
          | resume =>
              by_cases hc : 0 < t.suspend
              · simp [resume_thread, hc]
                omega
              · simp [resume_thread, hc]
                exact h
        simpa [applySuspendOps, List.foldl_cons] using ih _ hstep

/-- Witness for C7: suspending a thread whose counter is 127 fails and
leaves the record untouched. -/
theorem suspend_thread_bounds_witness :
    suspend_thread ⟨ThreadState.RUNNING, 127, 0, [], [], [], 0, 0⟩ =
      ⟨⟨ThreadState.RUNNING, 127, 0, [], [], [], 0, 0⟩, MAXIMUM_SUSPEND_COUNT,
        some STATUS_SUSPEND_COUNT_EXCEEDED, false⟩ :=
  suspend_thread_bounds.1 ⟨ThreadState.RUNNING, 127, 0, [], [], [], 0, 0⟩ rfl

/-! ### Termination (claim C8) -/

/-- Embedding of kill_thread of thread.c for the thread record: a
kill of an already TERMINATED thread returns at once; a first kill
sets state TERMINATED, records the exit time, unwinds every wait frame
and clears both APC queues (cleanup_thread).  The wakeup carrying the
exit code, the debug exit event and the mutex abandonment act on other
objects and are modelled elsewhere. -/
def kill_thread (t : ThreadRec) (current_time : Int) : ThreadRec :=
  if t.state = ThreadState.TERMINATED then t
  else
    { t with
      state := ThreadState.TERMINATED,
      exit_time := current_time,
      wait := [],
      systemApc := [],
      userApc := [] }

/-- C8: kill-thread is idempotent: on an already TERMINATED thread it
is a no-op changing no thread state; a first kill sets TERMINATED and
records the exit time, and any later kill does nothing. -/
theorem kill_thread_idempotent :
    (∀ (t : ThreadRec) (ct : Int), t.state = ThreadState.TERMINATED →
        kill_thread t ct = t) ∧
    (∀ (t : ThreadRec) (ct : Int), (kill_thread t ct).state = ThreadState.TERMINATED) ∧
    (∀ (t : ThreadRec) (ct : Int), ¬ t.state = ThreadState.TERMINATED →
        (kill_thread t ct).exit_time = ct) ∧
    (∀ (t : ThreadRec) (c1 c2 : Int), kill_thread (kill_thread t c1) c2 = kill_thread t c1) := by
  refine ⟨?_, ?_, ?_, ?_⟩
  · intro t ct h
    simp [kill_thread, h]
  · intro t ct
    by_cases h : t.state = ThreadState.TERMINATED
    · simp [kill_thread, h]
    · simp [kill_thread, h]
  · intro t ct h
    simp [kill_thread, h]
  · intro t c1 c2
    by_cases h : t.state = ThreadState.TERMINATED
    · simp [kill_thread, h]
    · simp [kill_thread, h]

/-- Witness for C8: killing an already terminated record changes
nothing. -/
theorem kill_thread_idempotent_witness :
    kill_thread ⟨ThreadState.TERMINATED, 0, 0, [], [], [], 5, 0⟩ 99 =
      ⟨ThreadState.TERMINATED, 0, 0, [], [], [], 5, 0⟩ :=
  kill_thread_idempotent.1 ⟨ThreadState.TERMINATED, 0, 0, [], [], [], 5, 0⟩ 99 rfl

/-! ### Thread objects as waitables (claim C10) -/

/-- Embedding of thread_signaled of thread.c: a thread object reports
signaled exactly when its state is TERMINATED; the waiter argument is
ignored, as in the source. -/
def thread_signaled (obj : ThreadRec) (waiter : ThreadRec) : Bool :=
  decide (obj.state = ThreadState.TERMINATED)

/-- View of a thread object as a member of a wait frame: signaled is
thread_signaled, and the satisfied slot is no_satisfied, which never
reports abandonment. -/
def threadWaitObject (obj waiter : ThreadRec) : WaitObject :=
  ⟨thread_signaled obj waiter, false⟩

/-- The scan of check_wait only ever selects an object whose signaled
operation reported true. -/
theorem scanSignaled_some_signaled :
    ∀ (l : List WaitObject) (i : Nat) (o : WaitObject),
      scanSignaled l = some (i, o) → o.signaled = true := by
  intro l
  induction l with
  | nil => intro i o h; simp [scanSignaled] at h
  | cons a rest ih =>
      intro i o h
      by_cases ha : a.signaled = true
      · simp [scanSignaled, ha] at h
        obtain ⟨hi, ho⟩ := h
        rw [← ho]
        exact ha
      · simp [scanSignaled, ha] at h
        rcases hsc : scanSignaled rest with _ | p
        · rw [hsc] at h
          simp at h
        · rw [hsc] at h
          simp at h
          obtain ⟨hi, hp, hidx⟩ := h
          have hs := ih p.1 p.2 hsc
          rw [hp] at hs
          exact hs

/-- C10: a thread object used as a waitable is signaled exactly when
its state is TERMINATED; a RUNNING thread reports unsignaled, and the
scan of check_wait therefore never resolves a wait through the wait
object of a RUNNING thread. -/
theorem thread_signaled_iff_terminated :
    ∀ (obj waiter : ThreadRec),
      (thread_signaled obj waiter = true ↔ obj.state = ThreadState.TERMINATED) ∧
      (obj.state = ThreadState.RUNNING → thread_signaled obj waiter = false) ∧
      (obj.state = ThreadState.RUNNING →
        ∀ (l : List WaitObject) (i : Nat),
          scanSignaled l = some (i, threadWaitObject obj waiter) → False) := by
  intro obj waiter
  refine ⟨by simp [thread_signaled], ?_, ?_⟩
  · intro h
    simp [thread_signaled, h]
  · intro h l i hscan
    have hsig := scanSignaled_some_signaled l i (threadWaitObject obj waiter) hscan
    simp [threadWaitObject, thread_signaled, h] at hsig

/-- Witness for C10: a RUNNING thread object reports unsignaled to any
waiter. -/
theorem thread_signaled_iff_terminated_witness :
    thread_signaled ⟨ThreadState.RUNNING, 0, 0, [], [], [], 0, 0⟩
        ⟨ThreadState.RUNNING, 0, 0, [], [], [], 0, 0⟩ = false :=
  (thread_signaled_iff_terminated ⟨ThreadState.RUNNING, 0, 0, [], [], [], 0, 0⟩
    ⟨ThreadState.RUNNING, 0, 0, [], [], [], 0, 0⟩).2.1 rfl

end LongeneThread
